import Mathlib

set_option maxHeartbeats 1000000

namespace GrapheneDjango

/-! Shallow embedding of `graphene_django/views.py`.

The external GraphQL engine (`graphql-core` through the configured
`graphene.Schema`: `parse`, `get_operation_ast`, `validate`, `execute`,
`format_error`) and the external `json` codec (`json.loads`, `json.dumps`)
are modelled as explicit parameters (`Engine`, `JsonCodec`); everything else
is translated directly from the source file.  Stateful side effects that the
claims talk about (`set_rollback`, `transaction.set_rollback(True)`, calls to
`json_encode`, body parsing, engine execution) are recorded in an explicit
event trace.  `HttpError` exceptions are modelled with `Except`. -/

/-- Decoded JSON values, as produced by the external `json` library
(`json.loads`).  Numbers are modelled as integers, which suffices for every
value the view itself manipulates. -/
inductive JSON where
  | null : JSON
  | bool : Bool → JSON
  | num : Int → JSON
  | str : String → JSON
  | arr : List JSON → JSON
  | obj : List (String × JSON) → JSON

/-- Python `==` between decoded JSON values. -/
def jsonEq : JSON → JSON → Bool
  | .null, .null => true
  | .bool a, .bool b => a == b
  | .num a, .num b => a == b
  | .str a, .str b => a == b
  | .arr [], .arr [] => true
  | .arr (x :: xs), .arr (y :: ys) => jsonEq x y && jsonEq (.arr xs) (.arr ys)
  | .obj [], .obj [] => true
  | .obj ((k, v) :: xs), .obj ((k2, v2) :: ys) =>
      k == k2 && jsonEq v v2 && jsonEq (.obj xs) (.obj ys)
  | _, _ => false

/-- Python truthiness of a decoded JSON value. -/
def jsonTruthy : JSON → Bool
  | .null => false
  | .bool b => b
  | .num n => n != 0
  | .str s => s != ""
  | .arr l => !l.isEmpty
  | .obj l => !l.isEmpty

/-- Python truthiness of an optional value (`None` is falsy). -/
def optTruthy : Option JSON → Bool
  | none => false
  | some v => jsonTruthy v

/-- Python `x or y` on optional JSON values: `y` whenever `x` is falsy. -/
def pyOr (a b : Option JSON) : Option JSON :=
  match a with
  | some v => if jsonTruthy v then some v else b
  | none => b

/-- Whether an association list (a Python dict in insertion order) carries a
given key. -/
def hasKey (kvs : List (String × JSON)) (k : String) : Bool :=
  kvs.any (fun kv => kv.1 == k)

/-- First value stored under a key of an association list (dict `.get`). -/
def lookupField (kvs : List (String × JSON)) (k : String) : Option JSON :=
  List.lookup k kvs

/-- A GraphQL error object as delivered by the external engine, together
with an exception raised by `parse`/`execute` and caught by the view.
`path` is `getattr(error, "path", None)`; `isGraphQLError` records
`isinstance(error, GraphQLError)`. -/
structure GQLError where
  message : String
  path : Option (List JSON)
  isGraphQLError : Bool

/-- The external engine's `ExecutionResult` (fields `data` and `errors`). -/
structure ExecutionResult where
  data : Option JSON
  errors : List GQLError

/-- `graphql.OperationType`. -/
inductive OperationType where
  | query : OperationType
  | mutation : OperationType
  | subscription : OperationType
deriving DecidableEq

/-- The `.value` string of an operation type. -/
def OperationType.value : OperationType → String
  | .query => "query"
  | .mutation => "mutation"
  | .subscription => "subscription"

/-- The Django request, restricted to the attributes the view reads.
`getParams` is `request.GET`, `postParams` is `request.POST` (form data),
`body` is the utf-8 decoded `request.body`, the three header fields are the
`META` entries read by the view, and `mutationErrorsFlag` is
`getattr(request, MUTATION_ERRORS_FLAG, False)`. -/
structure Request where
  method : String
  getParams : List (String × String)
  postParams : List (String × String)
  body : String
  contentTypeHeader : Option String
  httpContentTypeHeader : Option String
  acceptHeader : Option String
  mutationErrorsFlag : Bool

/-- `request.GET.get(k)`. -/
def getGET (req : Request) (k : String) : Option String :=
  List.lookup k req.getParams

/-- The view's per-instance configuration together with the two settings it
consults: `atomicMutations` is `graphene_settings.ATOMIC_MUTATIONS is True`
and `dbAtomicMutations` is
`connection.settings_dict.get("ATOMIC_MUTATIONS", False) is True`. -/
structure ViewConfig where
  graphiql : Bool
  batch : Bool
  pretty : Bool
  atomicMutations : Bool
  dbAtomicMutations : Bool
  rootValue : Option JSON

/-- The external `json` codec: `loads` (with `none` for a raised
`ValueError`), compact `dumps` and the pretty (`indent=2`) `dumps`. -/
structure JsonCodec where
  loads : String → Option JSON
  dumpsCompact : JSON → String
  dumpsPretty : JSON → String

/-- The keyword arguments handed to `schema.execute`; `context_value` (the
request itself), `middleware` and `execution_context_class` are passed
through unchanged to the external engine, which receives the request as a
separate argument of `Engine.execute`. -/
structure ExecOptions where
  source : JSON
  rootValue : Option JSON
  variableValues : Option JSON
  operationName : Option JSON

/-- The external GraphQL engine over an abstract document type `Doc`:
`parse` (raising a `GraphQLError` on syntax errors), `get_operation_ast`
(reduced to the `.operation` field of the returned node, `none` when the
node is `None`), `validate`, `schema.execute` (raising on failure) and
`graphql.error.graphql_error.format_error`. -/
structure Engine (Doc : Type) where
  parse : JSON → Except GQLError Doc
  getOperationAst : Doc → Option JSON → Option OperationType
  validate : Doc → List GQLError
  execute : ExecOptions → Request → Except GQLError ExecutionResult
  formatGraphQLError : GQLError → JSON

/-- A Django `HttpResponse`, restricted to what the view sets: status code,
content, the `Content-Type` header and the `Allow` header (set by
`HttpResponseNotAllowed`). -/
structure HttpResponseE where
  status : Nat
  content : String
  contentType : Option String
  allow : Option (List String)

/-- `HttpResponseBadRequest(content)`. -/
def badRequest (content : String) : HttpResponseE :=
  ⟨400, content, none, none⟩

/-- `HttpResponseNotAllowed(permitted_methods, content)`. -/
def notAllowed (methods : List String) (content : String) : HttpResponseE :=
  ⟨405, content, none, some methods⟩

/-- The view's `HttpError` exception: a response plus a message that
defaults to `response.content.decode()`. -/
structure HttpErrorS where
  response : HttpResponseE
  message : String

/-- `HttpError(response)` with the defaulted message. -/
def mkHttpError (r : HttpResponseE) : HttpErrorS :=
  ⟨r, r.content⟩

/-- Exceptions escaping a view function: either the view's own `HttpError`
(caught by `dispatch`) or any other Python exception (propagating to the
framework). -/
inductive Err where
  | http : HttpErrorS → Err
  | py : String → Err

/-- Observable side effects recorded while a request is handled. -/
inductive Event where
  | parseBody : Event
  | execute : Event
  | setRollback : Event
  | txSetRollback : Event
  | encode : JSON → Event

/-- Python `data.get(k)`: succeeds on a dict, raises `AttributeError` (a
non-`HttpError` exception) on any other value. -/
def dataGet : JSON → String → Except Err (Option JSON)
  | .obj kvs, k => .ok (List.lookup k kvs)
  | _, _ => .error (.py "AttributeError: object has no attribute get")

/-- Lower-casing of an ASCII string (Python `str.lower` on header text). -/
def lowerStr (s : String) : String :=
  String.mk (s.toList.map Char.toLower)

/-- Python `str.strip()`. -/
def pyStrip (s : String) : String :=
  String.mk (((s.toList.dropWhile Char.isWhitespace).reverse.dropWhile
    Char.isWhitespace).reverse)

/-- Helper for `splitOnChar`. -/
def splitOnCharAux (sep : Char) : List Char → List Char → List (List Char)
  | [], acc => [acc.reverse]
  | c :: cs, acc =>
      if c == sep then acc.reverse :: splitOnCharAux sep cs []
      else splitOnCharAux sep cs (c :: acc)

/-- Python `s.split(sep)` for a one-character separator. -/
def splitOnChar (sep : Char) (s : String) : List String :=
  (splitOnCharAux sep s.toList []).map String.mk

/-- Python `s.split(sep, 1)` for a one-character separator: the part before
the first separator, and the remainder when the separator occurs. -/
def splitOnceChar (sep : Char) : List Char → List Char × Option (List Char)
  | [] => ([], none)
  | c :: cs =>
      if c == sep then ([], some cs)
      else
        let p := splitOnceChar sep cs
        (c :: p.1, p.2)

/-- Embedding of `GraphQLView.get_content_type`:
`META.get("CONTENT_TYPE", META.get("HTTP_CONTENT_TYPE", ""))`, cut at the
first `;` and lower-cased. -/
def get_content_type (req : Request) : String :=
  let ct := req.contentTypeHeader.getD (req.httpContentTypeHeader.getD "")
  lowerStr (String.mk (splitOnceChar ';' ct.toList).1)

/-- Longest leading run of decimal digits, with the rest of the input. -/
def takeDigits : List Char → List Char × List Char
  | [] => ([], [])
  | c :: cs =>
      if c.isDigit then
        let p := takeDigits cs
        (c :: p.1, p.2)
      else ([], c :: cs)

/-- Longest leading run of `'0'` characters, with the rest of the input. -/
def takeZeros : List Char → List Char × List Char
  | [] => ([], [])
  | c :: cs =>
      if c == '0' then
        let p := takeZeros cs
        (c :: p.1, p.2)
      else ([], c :: cs)

/-- Whether the regex tail `(;|$)` matches here: end of input or a `;`. -/
def qTerm : List Char → Bool
  | [] => true
  | c :: _ => c == ';'

/-- Numeric value of a digit string. -/
def digitsVal : List Char → Nat
  | [] => 0
  | c :: cs => (c.toNat - '0'.toNat) * 10 ^ cs.length + digitsVal cs

/-- Value in permille of the regex fragment `0(\.\d{,3})?|1(\.0{,3})?`
followed by `(;|$)`, starting at the given characters; `none` when the
regex does not match.  Backtracking over the greedy `\d{,3}` succeeds only
when the whole maximal digit run (of length at most 3) is followed by a
terminator, which is what this function tests. -/
def matchQNumber : List Char → Option Nat
  | '0' :: rest =>
      match rest with
      | '.' :: ds =>
          let p := takeDigits ds
          if p.1.length ≤ 3 && qTerm p.2 then
            some (digitsVal p.1 * 10 ^ (3 - p.1.length))
          else if qTerm rest then some 0 else none
      | _ => if qTerm rest then some 0 else none
  | '1' :: rest =>
      match rest with
      | '.' :: ds =>
          let p := takeZeros ds
          if p.1.length ≤ 3 && qTerm p.2 then some 1000
          else if qTerm rest then some 1000 else none
      | _ => if qTerm rest then some 1000 else none
  | _ => none

/-- The leading `(^|;)q=` of the quality regex, applied to the text after
the first `;` of an accept entry; on success the matched q-value in
permille. -/
def matchQTail : List Char → Option Nat
  | 'q' :: '=' :: rest => matchQNumber rest
  | ';' :: 'q' :: '=' :: rest => matchQNumber rest
  | _ => none

/-- Embedding of the local `qualify` function of
`get_accepted_content_types`: media type stripped of whitespace, together
with its quality in permille (default 1000 when no `;` part or no regex
match). -/
def qualify (x : String) : String × Nat :=
  let s := splitOnceChar ';' x.toList
  match s.2 with
  | some tail =>
      match matchQTail tail with
      | some q => (pyStrip (String.mk s.1), q)
      | none => (pyStrip (String.mk s.1), 1000)
  | none => (pyStrip (String.mk s.1), 1000)

/-- Stable insertion for a descending sort on the quality component:
the inserted element goes before the first element whose quality it
reaches, so ties keep their original (header) order, as Python's stable
`sorted(..., key=lambda x: x[1], reverse=True)` does. -/
def insertByQ (x : String × Nat) : List (String × Nat) → List (String × Nat)
  | [] => [x]
  | y :: ys => if x.2 ≥ y.2 then x :: y :: ys else y :: insertByQ x ys

/-- Stable descending sort by quality. -/
def sortByQDesc : List (String × Nat) → List (String × Nat)
  | [] => []
  | x :: xs => insertByQ x (sortByQDesc xs)

/-- Embedding of `get_accepted_content_types`: the accept header (default
`*/*`) split on commas, each entry qualified, sorted by descending quality,
keeping only the media types. -/
def get_accepted_content_types (req : Request) : List String :=
  let raw := splitOnChar ',' (req.acceptHeader.getD "*/*")
  (sortByQDesc (raw.map qualify)).map Prod.fst

/-- Python `list.index` (first occurrence). -/
def pyIndex : List String → String → Nat
  | [], _ => 0
  | x :: xs, s => if x = s then 0 else pyIndex xs s + 1

/-- Embedding of `GraphQLView.request_wants_html`. -/
def request_wants_html (req : Request) : Bool :=
  let accepted := get_accepted_content_types req
  let n := accepted.length
  let htmlPriority :=
    if "text/html" ∈ accepted then n - pyIndex accepted "text/html" else 0
  let jsonPriority :=
    if "application/json" ∈ accepted then n - pyIndex accepted "application/json"
    else 0
  decide (jsonPriority < htmlPriority)

/-- Substring test on character lists (Python `needle in haystack` for
strings). -/
def subListChars (needle : List Char) : List Char → Bool
  | [] => needle.isEmpty
  | c :: cs => List.isPrefixOf needle (c :: cs) || subListChars needle cs

/-- Python `key in data` for the values `parse_body` can return (a dict, a
list in batch mode, or form data).  On a number, boolean or `None`, Python
would raise `TypeError`; those shapes are unreachable here and mapped to
`false`. -/
def inData (data : JSON) (key : String) : Bool :=
  match data with
  | .obj kvs => kvs.any (fun kv => kv.1 == key)
  | .arr xs => xs.any (fun v => jsonEq v (.str key))
  | .str s => subListChars key.toList s.toList
  | _ => false

/-- Embedding of `GraphQLView.can_display_graphiql`. -/
def can_display_graphiql (req : Request) (data : JSON) : Bool :=
  let raw := (getGET req "raw").isSome || inData data "raw"
  !raw && request_wants_html req

/-- Embedding of `GraphQLView.format_error`. -/
def format_error {Doc : Type} (eng : Engine Doc) (e : GQLError) : JSON :=
  if e.isGraphQLError then eng.formatGraphQLError e
  else .obj [("message", .str e.message)]

/-- Embedding of `GraphQLView.json_encode`: compact separators unless the
view is pretty, the call asks for pretty, or a truthy `pretty` URL
parameter is present. -/
def json_encode (codec : JsonCodec) (cfg : ViewConfig) (req : Request)
    (d : JSON) (pretty : Bool) : String :=
  let getPretty :=
    match getGET req "pretty" with
    | some s => s != ""
    | none => false
  if !(cfg.pretty || pretty) && !getPretty then codec.dumpsCompact d
  else codec.dumpsPretty d

/-- Embedding of `GraphQLView.parse_body`.  The assertion message for a
non-list batch body interpolates `repr(request_json)` in Python; the
interpolation is abbreviated here, no claim depends on that text. -/
def parse_body (codec : JsonCodec) (cfg : ViewConfig) (req : Request) :
    Except Err JSON :=
  let contentType := get_content_type req
  if contentType = "application/graphql" then
    .ok (.obj [("query", .str req.body)])
  else if contentType = "application/json" then
    match codec.loads req.body with
    | none => .error (.http (mkHttpError (badRequest "POST body sent invalid JSON.")))
    | some j =>
        if cfg.batch then
          match j with
          | .arr l =>
              if l.isEmpty then
                .error (.http (mkHttpError
                  (badRequest "Received an empty list in the batch request.")))
              else .ok (.arr l)
          | _ =>
              .error (.http (mkHttpError
                (badRequest "Batch requests should receive a list.")))
        else
          match j with
          | .obj kvs => .ok (.obj kvs)
          | _ =>
              .error (.http (mkHttpError
                (badRequest "The received data is not a valid JSON query.")))
  else if contentType = "application/x-www-form-urlencoded"
      ∨ contentType = "multipart/form-data" then
    .ok (.obj (req.postParams.map (fun kv => (kv.1, .str kv.2))))
  else
    .ok (.obj [])

/-- The four GraphQL-over-HTTP parameters as resolved by
`get_graphql_params`. -/
structure GraphQLParams where
  query : Option JSON
  vars : Option JSON
  operationName : Option JSON
  id : Option JSON

/-- The `variables` post-processing of `get_graphql_params`: a truthy
string value is decoded as JSON, anything else is passed through. -/
def parseVariables (codec : JsonCodec) (v : Option JSON) :
    Except Err (Option JSON) :=
  match v with
  | some (.str s) =>
      if s = "" then .ok (some (.str s))
      else
        match codec.loads s with
        | some j => .ok (some j)
        | none =>
            .error (.http (mkHttpError (badRequest "Variables are invalid JSON.")))
  | other => .ok other

/-- Embedding of `GraphQLView.get_graphql_params`. -/
def get_graphql_params (codec : JsonCodec) (req : Request) (data : JSON) :
    Except Err GraphQLParams :=
  match dataGet data "query" with
  | .error e => .error e
  | .ok dq =>
    match dataGet data "variables" with
    | .error e => .error e
    | .ok dv =>
      match dataGet data "id" with
      | .error e => .error e
      | .ok di =>
        let query := pyOr ((getGET req "query").map JSON.str) dq
        let vars0 := pyOr ((getGET req "variables").map JSON.str) dv
        let id := pyOr ((getGET req "id").map JSON.str) di
        match parseVariables codec vars0 with
        | .error e => .error e
        | .ok vrs =>
          match dataGet data "operationName" with
          | .error e => .error e
          | .ok dop =>
            let opName0 := pyOr ((getGET req "operationName").map JSON.str) dop
            let opName :=
              match opName0 with
              | some (.str s) => if s = "null" then none else opName0
              | _ => opName0
            .ok ⟨query, vrs, opName, id⟩

/-- Whether `not getattr(error, "path", None)` holds: no `path` attribute,
a `None` path, or an empty path list. -/
def pathFalsy (e : GQLError) : Bool :=
  match e.path with
  | none => true
  | some l => l.isEmpty

/-- The condition selecting status 400 in `get_response`: a non-empty error
list with at least one error whose `path` is falsy. -/
def badResult (er : ExecutionResult) : Bool :=
  !er.errors.isEmpty && er.errors.any pathFalsy

/-- The response dictionary and status code built by `get_response` from a
non-`None` execution result (source lines 203 to 224), including the batch
`id`/`status` entries. -/
def build_response {Doc : Type} (eng : Engine Doc) (cfg : ViewConfig)
    (er : ExecutionResult) (id : Option JSON) :
    List (String × JSON) × Nat :=
  let errorsPart : List (String × JSON) :=
    if er.errors.isEmpty then []
    else [("errors", .arr (er.errors.map (format_error eng)))]
  let status : Nat := if badResult er then 400 else 200
  let withData :=
    if badResult er then errorsPart
    else errorsPart ++ [("data", er.data.getD .null)]
  let resp :=
    if cfg.batch then
      withData ++ [("id", id.getD .null), ("status", .num (Int.ofNat status))]
    else withData
  (resp, status)

/-- Embedding of `GraphQLView.execute_graphql_request`.  The first
component is the returned optional `ExecutionResult` or the raised
exception; the second is the trace of engine executions and
`transaction.set_rollback(True)` calls. -/
def execute_graphql_request {Doc : Type} (eng : Engine Doc)
    (cfg : ViewConfig) (req : Request) (query vars operationName : Option JSON)
    (showGraphiql : Bool) :
    Except Err (Option ExecutionResult) × List Event :=
  if !optTruthy query then
    if showGraphiql then (.ok none, [])
    else (.error (.http (mkHttpError (badRequest "Must provide query string."))), [])
  else
    match eng.parse (query.getD .null) with
    | .error e => (.ok (some ⟨none, [e]⟩), [])
    | .ok document =>
      let getRejected : Option OperationType :=
        if lowerStr req.method = "get" then
          match eng.getOperationAst document operationName with
          | some op => if op ≠ .query then some op else none
          | none => none
        else none
      match getRejected with
      | some op =>
          if showGraphiql then (.ok none, [])
          else
            (.error (.http (mkHttpError (notAllowed ["POST"]
              ("Can only perform a " ++ op.value ++
                " operation from a POST request.")))), [])
      | none =>
        let validationErrors := eng.validate document
        if !validationErrors.isEmpty then
          (.ok (some ⟨none, validationErrors⟩), [])
        else
          let options : ExecOptions :=
            ⟨query.getD .null, cfg.rootValue, vars, operationName⟩
          let opAst := eng.getOperationAst document operationName
          let atomicMutation :=
            (match opAst with
              | some op => decide (op = .mutation)
              | none => false)
            && (cfg.atomicMutations || cfg.dbAtomicMutations)
          if atomicMutation then
            match eng.execute options req with
            | .ok result =>
                if req.mutationErrorsFlag then
                  (.ok (some result), [.execute, .txSetRollback])
                else (.ok (some result), [.execute])
            | .error e => (.ok (some ⟨none, [e]⟩), [.execute])
          else
            match eng.execute options req with
            | .ok result => (.ok (some result), [.execute])
            | .error e => (.ok (some ⟨none, [e]⟩), [.execute])

/-- Embedding of `GraphQLView.get_response`: the serialized body (when an
execution result was produced) and the status code, plus the event trace
(`set_rollback()` calls and the final `json_encode`). -/
def get_response {Doc : Type} (codec : JsonCodec) (eng : Engine Doc)
    (cfg : ViewConfig) (req : Request) (data : JSON) (showGraphiql : Bool) :
    Except Err (Option String × Nat) × List Event :=
  match get_graphql_params codec req data with
  | .error e => (.error e, [])
  | .ok params =>
    let exec := execute_graphql_request eng cfg req params.query
      params.vars params.operationName showGraphiql
    match exec.1 with
    | .error e => (.error e, exec.2)
    | .ok executionResult =>
      let t1 := exec.2 ++ (if req.mutationErrorsFlag then [Event.setRollback] else [])
      match executionResult with
      | none => (.ok (none, 200), t1)
      | some er =>
        let t2 := t1 ++ (if er.errors.isEmpty then [] else [Event.setRollback])
        let br := build_response eng cfg er params.id
        let encoded := json_encode codec cfg req (.obj br.1) showGraphiql
        (.ok (some encoded, br.2), t2 ++ [Event.encode (.obj br.1)])

/-- Result of `dispatch`: an HTTP response or the rendered GraphiQL page. -/
inductive DispatchOutcome where
  | response : HttpResponseE → DispatchOutcome
  | graphiqlPage : DispatchOutcome

/-- The `except HttpError` branch of `dispatch`: the exception's response
with `Content-Type: application/json` and a JSON `errors` array built from
`format_error` of the exception as body. -/
def handle_http_error (codec : JsonCodec) (cfg : ViewConfig) (req : Request)
    (e : HttpErrorS) : HttpResponseE :=
  { status := e.response.status
    content := json_encode codec cfg req
      (.obj [("errors", .arr [.obj [("message", .str e.message)]])]) false
    contentType := some "application/json"
    allow := e.response.allow }

/-- Python `for entry in data` for the values `parse_body` can return:
elements of a list, keys of a dict, characters of a string; a `TypeError`
otherwise. -/
def entriesOf : JSON → Except Err (List JSON)
  | .arr xs => .ok xs
  | .obj kvs => .ok (kvs.map (fun kv => .str kv.1))
  | .str s => .ok (s.toList.map (fun c => .str (String.mk [c])))
  | _ => .error (.py "TypeError: object is not iterable")

/-- The batch list comprehension of `dispatch`: `get_response` on each
entry, stopping at the first raised exception, with the concatenated event
trace. -/
def run_batch {Doc : Type} (codec : JsonCodec) (eng : Engine Doc)
    (cfg : ViewConfig) (req : Request) :
    List JSON → Except Err (List (Option String × Nat)) × List Event
  | [] => (.ok [], [])
  | e :: es =>
    let r := get_response codec eng cfg req e false
    match r.1 with
    | .error err => (.error err, r.2)
    | .ok pair =>
      let rest := run_batch codec eng cfg req es
      match rest.1 with
      | .error err => (.error err, r.2 ++ rest.2)
      | .ok l => (.ok (pair :: l), r.2 ++ rest.2)

/-- Python `max(responses, key=lambda response: response[1])` over a
non-empty list given as head and tail: the first element attaining the
maximal status. -/
def pyMaxBySnd (x : Option String × Nat) :
    List (Option String × Nat) → Option String × Nat
  | [] => x
  | y :: ys => pyMaxBySnd (if y.2 > x.2 then y else x) ys

/-- Embedding of `GraphQLView.dispatch`, with the trace of body parsing,
engine executions and rollback calls. -/
def dispatch {Doc : Type} (codec : JsonCodec) (eng : Engine Doc)
    (cfg : ViewConfig) (req : Request) :
    Except Err DispatchOutcome × List Event :=
  if lowerStr req.method ≠ "get" ∧ lowerStr req.method ≠ "post" then
    (.ok (.response (handle_http_error codec cfg req (mkHttpError
      (notAllowed ["GET", "POST"]
        "GraphQL only supports GET and POST requests.")))), [])
  else
    match parse_body codec cfg req with
    | .error (.http e) =>
        (.ok (.response (handle_http_error codec cfg req e)), [.parseBody])
    | .error (.py m) => (.error (.py m), [.parseBody])
    | .ok data =>
      let showGraphiql := cfg.graphiql && can_display_graphiql req data
      if showGraphiql then (.ok .graphiqlPage, [.parseBody])
      else if cfg.batch then
        match entriesOf data with
        | .error err => (.error err, [.parseBody])
        | .ok entries =>
          let rb := run_batch codec eng cfg req entries
          match rb.1 with
          | .error (.http e) =>
              (.ok (.response (handle_http_error codec cfg req e)),
                .parseBody :: rb.2)
          | .error (.py m) => (.error (.py m), .parseBody :: rb.2)
          | .ok responses =>
            if responses.any (fun p => p.1.isNone) then
              (.error (.py "TypeError: sequence item expected str instance"),
                .parseBody :: rb.2)
            else
              let result := "[" ++
                String.intercalate ","
                  (responses.map (fun p => p.1.getD "")) ++ "]"
              let maxStatus :=
                match responses with
                | [] => 200
                | r :: rest => (pyMaxBySnd r rest).2
              let status :=
                if responses.isEmpty ∨ maxStatus = 0 then 200 else maxStatus
              (.ok (.response ⟨status, result, some "application/json", none⟩),
                .parseBody :: rb.2)
      else
        let gr := get_response codec eng cfg req data showGraphiql
        match gr.1 with
        | .error (.http e) =>
            (.ok (.response (handle_http_error codec cfg req e)),
              .parseBody :: gr.2)
        | .error (.py m) => (.error (.py m), .parseBody :: gr.2)
        | .ok pair =>
            (.ok (.response ⟨pair.2,
              (match pair.1 with
                | some s => s
                | none => "None"),
              some "application/json", none⟩), .parseBody :: gr.2)

/-! Concrete instances used to evaluate the development on closed inputs. -/

/-- A codec whose `loads` rejects every string. -/
def codecNone : JsonCodec :=
  ⟨fun _ => none, fun _ => "{}", fun _ => "{ }"⟩

/-- An engine that parses everything, sees a mutation operation, validates
cleanly, and executes to a single path-less error. -/
def engMutation : Engine Unit :=
  ⟨fun _ => .ok (), fun _ _ => some .mutation, fun _ => [],
    fun _ _ => .ok ⟨none, [⟨"boom", none, true⟩]⟩,
    fun e => .obj [("message", .str e.message)]⟩

/-- An engine that parses everything, sees a query operation, validates
cleanly, and executes to a plain data result. -/
def engQuery : Engine Unit :=
  ⟨fun _ => .ok (), fun _ _ => some .query, fun _ => [],
    fun _ _ => .ok ⟨some (.obj [("a", .num 1)]), []⟩,
    fun e => .obj [("message", .str e.message)]⟩

/-- A plain view configuration: no GraphiQL, no batch, nothing pretty. -/
def cfgPlain : ViewConfig := ⟨false, false, false, false, false, none⟩

/-- The plain configuration with `ATOMIC_MUTATIONS` switched on. -/
def cfgAtomic : ViewConfig := ⟨false, false, false, true, false, none⟩

/-- The plain configuration in batch mode. -/
def cfgBatch : ViewConfig := ⟨false, true, false, false, false, none⟩

/-- A bare POST request with an empty body and no headers. -/
def reqPost : Request := ⟨"POST", [], [], "", none, none, none, false⟩

/-- A bare GET request. -/
def reqGet : Request := ⟨"GET", [], [], "", none, none, none, false⟩

/-- A POST request whose mutation-errors flag has been set. -/
def reqPostFlag : Request := ⟨"POST", [], [], "", none, none, none, true⟩

/-- A body carrying only a `query` entry. -/
def dataQuery : JSON := .obj [("query", .str "mutation m { x }")]

/-- A GET request accepting `text/html,application/json` (equal, default
quality). -/
def reqHtml : Request :=
  ⟨"GET", [], [], "", none, none, some "text/html,application/json", false⟩

/-- A codec that decodes the literal body `"batch"` to a one-entry batch
list. -/
def codecBatch : JsonCodec :=
  ⟨fun s => if s = "batch" then some (.arr [.obj [("query", .str "{a}")]])
    else none,
    fun _ => "{}", fun _ => "{ }"⟩

/-- A JSON POST request carrying the batch body. -/
def reqBatch : Request :=
  ⟨"POST", [], [], "batch", some "application/json", none, none, false⟩

/-! Theorems settling the claims. -/

/-- Python `list.index` of a member is below the length. -/
theorem pyIndex_lt_length (l : List String) (s : String) (h : s ∈ l) :
    pyIndex l s < l.length := by
  induction l with
  | nil => cases h
  | cons x xs ih =>
      by_cases hx : x = s
      · simp [pyIndex, hx]
      · rcases List.mem_cons.mp h with h1 | h2
        · exact absurd h1.symm hx
        · simp only [pyIndex, if_neg hx, List.length_cons]
          exact Nat.succ_lt_succ (ih h2)

/-- The status code computed by `build_response`. -/
theorem build_response_status {Doc : Type} (eng : Engine Doc)
    (cfg : ViewConfig) (er : ExecutionResult) (id : Option JSON) :
    (build_response eng cfg er id).2 = if badResult er then 400 else 200 := by
  by_cases hb : badResult er = true <;> simp [build_response, hb]

/-- The response dictionary of `build_response` carries the `data` key
exactly when the result was not bad (outside batch mode). -/
theorem build_response_dataKey {Doc : Type} (eng : Engine Doc)
    (cfg : ViewConfig) (er : ExecutionResult) (id : Option JSON)
    (hbatch : cfg.batch = false) :
    hasKey (build_response eng cfg er id).1 "data" = !badResult er := by
  by_cases hb : badResult er = true
  · by_cases he : er.errors.isEmpty <;>
      simp [build_response, hasKey, hb, hbatch, he]
  · have hb' : badResult er = false := by simpa using hb
    by_cases he : er.errors.isEmpty <;>
      simp [build_response, hasKey, hb', hbatch, he]

/-- The 400-selecting condition of `get_response`, spelt out: a non-empty
error list one of whose errors has a falsy `path`. -/
theorem badResult_iff (er : ExecutionResult) :
    badResult er = true ↔
      (er.errors ≠ [] ∧ ∃ e ∈ er.errors, pathFalsy e = true) := by
  simp [badResult, List.any_eq_true, List.isEmpty_iff]

/-- C6: for every request in which no query string is supplied (neither in
the URL parameters nor in the parsed body) and GraphiQL is not being shown,
`execute_graphql_request` raises an `HttpError` carrying an HTTP 400 Bad
Request response with message "Must provide query string.". -/
theorem C6_missing_query {Doc : Type} (eng : Engine Doc) (cfg : ViewConfig)
    (codec : JsonCodec) (req : Request) (data : JSON) (p : GraphQLParams)
    (hGET : getGET req "query" = none)
    (hbody : dataGet data "query" = .ok none)
    (hp : get_graphql_params codec req data = .ok p) :
    execute_graphql_request eng cfg req p.query p.vars p.operationName false
      = (.error (.http ⟨badRequest "Must provide query string.",
          "Must provide query string."⟩), []) := by
  have hq : p.query = none := by
    cases data with
    | obj kvs =>
        simp only [dataGet, Except.ok.injEq] at hbody
        simp only [get_graphql_params, dataGet, hbody] at hp
        rcases hpv : parseVariables codec
            (pyOr ((getGET req "variables").map JSON.str)
              (List.lookup "variables" kvs)) with e | vrs
        · rw [hpv] at hp; cases hp
        · rw [hpv] at hp
          simp only [Except.ok.injEq] at hp
          rw [← hp]
          simp [pyOr, hGET]
    | null => simp [dataGet] at hbody
    | bool b => simp [dataGet] at hbody
    | num n => simp [dataGet] at hbody
    | str s => simp [dataGet] at hbody
    | arr l => simp [dataGet] at hbody
  rw [hq]
  simp [execute_graphql_request, optTruthy, mkHttpError, badRequest]

/-- Witness for C6 at a concrete empty request and body. -/
theorem C6_missing_query_witness :
    execute_graphql_request engMutation cfgPlain reqPost none none none false
      = (.error (.http ⟨badRequest "Must provide query string.",
          "Must provide query string."⟩), []) :=
  C6_missing_query engMutation cfgPlain codecNone reqPost (.obj [])
    ⟨none, none, none, none⟩ rfl rfl rfl

/-- C2: for a GET request (GraphiQL not shown) whose parsed document's
selected operation is not a query, `execute_graphql_request` raises an
`HttpError` carrying an HTTP 405 response allowing only POST, and the
engine's `execute` is never invoked. -/
theorem C2_get_mutation_rejected {Doc : Type} (eng : Engine Doc)
    (cfg : ViewConfig) (req : Request) (q v o : Option JSON) (doc : Doc)
    (op : OperationType)
    (hm : lowerStr req.method = "get")
    (hq : optTruthy q = true)
    (hparse : eng.parse (q.getD .null) = .ok doc)
    (hop : eng.getOperationAst doc o = some op)
    (hnq : op ≠ .query) :
    execute_graphql_request eng cfg req q v o false
      = (.error (.http (mkHttpError (notAllowed ["POST"]
          ("Can only perform a " ++ op.value ++
            " operation from a POST request.")))), [])
      ∧ Event.execute ∉ (execute_graphql_request eng cfg req q v o false).2 := by
  have h : execute_graphql_request eng cfg req q v o false
      = (.error (.http (mkHttpError (notAllowed ["POST"]
          ("Can only perform a " ++ op.value ++
            " operation from a POST request.")))), []) := by
    simp [execute_graphql_request, hq, hparse, hm, hop, hnq]
  exact ⟨h, by rw [h]; simp⟩

/-- Witness for C2: a GET request carrying a mutation document. -/
theorem C2_get_mutation_rejected_witness :
    execute_graphql_request engMutation cfgPlain reqGet
        (some (.str "mutation m { x }")) none none false
      = (.error (.http (mkHttpError (notAllowed ["POST"]
          ("Can only perform a " ++ OperationType.mutation.value ++
            " operation from a POST request.")))), [])
      ∧ Event.execute ∉ (execute_graphql_request engMutation cfgPlain reqGet
          (some (.str "mutation m { x }")) none none false).2 :=
  C2_get_mutation_rejected engMutation cfgPlain reqGet
    (some (.str "mutation m { x }")) none none () OperationType.mutation
    rfl rfl rfl rfl (by simp)

/-- C5: for every request with content type application/json whose body is
not valid JSON, or, in non-batch mode, whose decoded JSON is not a
dictionary, `parse_body` raises an `HttpError` carrying an HTTP 400 Bad
Request response. -/
theorem C5_invalid_json_400 (codec : JsonCodec) (cfg : ViewConfig)
    (req : Request)
    (hct : get_content_type req = "application/json")
    (hbad : codec.loads req.body = none ∨
      (cfg.batch = false ∧
        ∃ j, codec.loads req.body = some j ∧ ∀ kvs, j ≠ JSON.obj kvs)) :
    ∃ e, parse_body codec cfg req = .error (.http e)
      ∧ e.response.status = 400 := by
  rcases hbad with hnone | ⟨hb, j, hj, hobj⟩
  · refine ⟨mkHttpError (badRequest "POST body sent invalid JSON."), ?_, rfl⟩
    simp [parse_body, hct, hnone]
  · cases j with
    | obj kvs => exact absurd rfl (hobj kvs)
    | null =>
        refine ⟨mkHttpError (badRequest "The received data is not a valid JSON query."),
          ?_, rfl⟩
        simp [parse_body, hct, hj, hb]
    | bool b =>
        refine ⟨mkHttpError (badRequest "The received data is not a valid JSON query."),
          ?_, rfl⟩
        simp [parse_body, hct, hj, hb]
    | num n =>
        refine ⟨mkHttpError (badRequest "The received data is not a valid JSON query."),
          ?_, rfl⟩
        simp [parse_body, hct, hj, hb]
    | str s =>
        refine ⟨mkHttpError (badRequest "The received data is not a valid JSON query."),
          ?_, rfl⟩
        simp [parse_body, hct, hj, hb]
    | arr l =>
        refine ⟨mkHttpError (badRequest "The received data is not a valid JSON query."),
          ?_, rfl⟩
        simp [parse_body, hct, hj, hb]

/-- Witness for C5: a JSON POST whose body does not decode. -/
theorem C5_invalid_json_400_witness :
    ∃ e, parse_body codecNone cfgPlain
        ⟨"POST", [], [], "not json", some "application/json", none, none, false⟩
      = .error (.http e) ∧ e.response.status = 400 :=
  C5_invalid_json_400 codecNone cfgPlain
    ⟨"POST", [], [], "not json", some "application/json", none, none, false⟩
    rfl (Or.inl rfl)

/-- C7: for every request whose method is neither GET nor POST, `dispatch`
returns a 405 Method Not Allowed response listing GET and POST, with a JSON
errors array as body, and neither parses the body nor executes anything. -/
theorem C7_method_not_allowed {Doc : Type} (codec : JsonCodec)
    (eng : Engine Doc) (cfg : ViewConfig) (req : Request)
    (hm : lowerStr req.method ≠ "get" ∧ lowerStr req.method ≠ "post") :
    ∃ r, dispatch codec eng cfg req = (.ok (.response r), [])
      ∧ r.status = 405
      ∧ r.allow = some ["GET", "POST"]
      ∧ r.contentType = some "application/json"
      ∧ r.content = json_encode codec cfg req
          (.obj [("errors", .arr [.obj [("message",
            .str "GraphQL only supports GET and POST requests.")]])]) false
      ∧ Event.parseBody ∉ (dispatch codec eng cfg req).2
      ∧ Event.execute ∉ (dispatch codec eng cfg req).2 := by
  have h : dispatch codec eng cfg req
      = (.ok (.response (handle_http_error codec cfg req (mkHttpError
          (notAllowed ["GET", "POST"]
            "GraphQL only supports GET and POST requests.")))), []) := by
    simp [dispatch, hm]
  exact ⟨_, h, rfl, rfl, rfl, rfl, by rw [h]; simp, by rw [h]; simp⟩

/-- Witness for C7 at a concrete PUT request. -/
theorem C7_method_not_allowed_witness :
    ∃ r, dispatch codecNone engQuery cfgPlain
        ⟨"PUT", [], [], "", none, none, none, false⟩ = (.ok (.response r), [])
      ∧ r.status = 405
      ∧ r.allow = some ["GET", "POST"]
      ∧ r.contentType = some "application/json"
      ∧ r.content = json_encode codecNone cfgPlain
          ⟨"PUT", [], [], "", none, none, none, false⟩
          (.obj [("errors", .arr [.obj [("message",
            .str "GraphQL only supports GET and POST requests.")]])]) false
      ∧ Event.parseBody ∉ (dispatch codecNone engQuery cfgPlain
          ⟨"PUT", [], [], "", none, none, none, false⟩).2
      ∧ Event.execute ∉ (dispatch codecNone engQuery cfgPlain
          ⟨"PUT", [], [], "", none, none, none, false⟩).2 :=
  C7_method_not_allowed codecNone engQuery cfgPlain
    ⟨"PUT", [], [], "", none, none, none, false⟩ (by constructor <;> decide)

/-- C8: `parse_body` returns a dictionary with the decoded body under
`query` for content type application/graphql, the POST parameters for the
form-encoded content types, and an empty dictionary for any other content
type that is not application/json. -/
theorem C8_content_type_dispatch (codec : JsonCodec) (cfg : ViewConfig)
    (req : Request) :
    (get_content_type req = "application/graphql" →
      parse_body codec cfg req = .ok (.obj [("query", .str req.body)]))
    ∧ (get_content_type req = "application/x-www-form-urlencoded" ∨
        get_content_type req = "multipart/form-data" →
      parse_body codec cfg req
        = .ok (.obj (req.postParams.map (fun kv => (kv.1, .str kv.2)))))
    ∧ (get_content_type req ≠ "application/graphql" →
        get_content_type req ≠ "application/json" →
        get_content_type req ≠ "application/x-www-form-urlencoded" →
        get_content_type req ≠ "multipart/form-data" →
      parse_body codec cfg req = .ok (.obj [])) := by
  refine ⟨fun h => ?_, fun h => ?_, fun h1 h2 h3 h4 => ?_⟩
  · simp [parse_body, h]
  · rcases h with h | h <;> simp [parse_body, h]
  · simp [parse_body, h1, h2, h3, h4]

/-- Witness for C8 at a concrete application/graphql request. -/
theorem C8_content_type_dispatch_witness :
    parse_body codecNone cfgPlain
        ⟨"POST", [], [], "{ a }", some "application/graphql", none, none, false⟩
      = .ok (.obj [("query", .str "{ a }")]) :=
  (C8_content_type_dispatch codecNone cfgPlain
    ⟨"POST", [], [], "{ a }", some "application/graphql", none, none, false⟩).1 rfl

/-- C1: for every non-batch request that yields an execution result,
`get_response` returns status 200 or 400; it returns 400 exactly when the
result's error list is non-empty and contains an error with a falsy `path`;
and the response dictionary carries the `data` key exactly when the status
is 200. -/
theorem C1_status_selection {Doc : Type} (codec : JsonCodec)
    (eng : Engine Doc) (cfg : ViewConfig) (req : Request) (data : JSON)
    (sg : Bool) (p : GraphQLParams) (er : ExecutionResult)
    (hbatch : cfg.batch = false)
    (hp : get_graphql_params codec req data = .ok p)
    (he : (execute_graphql_request eng cfg req p.query p.vars
      p.operationName sg).1 = .ok (some er)) :
    ∃ resp status,
      (get_response codec eng cfg req data sg).1
        = .ok (some (json_encode codec cfg req (.obj resp) sg), status)
      ∧ (status = 200 ∨ status = 400)
      ∧ ((status = 400) ↔
          (er.errors ≠ [] ∧ ∃ e ∈ er.errors, pathFalsy e = true))
      ∧ (hasKey resp "data" = true ↔ status = 200) := by
  refine ⟨(build_response eng cfg er p.id).1, (build_response eng cfg er p.id).2,
    ?_, ?_, ?_, ?_⟩
  · simp only [get_response, hp]
    rw [he]
  · rw [build_response_status]
    by_cases hb : badResult er = true <;> simp [hb]
  · rw [build_response_status]
    by_cases hb : badResult er = true
    · simp only [hb, if_true]
      simp [(badResult_iff er).mp hb]
    · have hb' : badResult er = false := by simpa using hb
      simp only [hb', if_false]
      constructor
      · intro h; cases h
      · intro h
        exact absurd ((badResult_iff er).mpr h) (by simp [hb'])
  · rw [build_response_dataKey eng cfg er p.id hbatch, build_response_status]
    by_cases hb : badResult er = true <;> simp [hb]

/-- Witness for C1: a failing mutation gives a 400 without `data`. -/
theorem C1_status_selection_witness :
    ∃ resp status,
      (get_response codecNone engMutation cfgPlain reqPost dataQuery false).1
        = .ok (some (json_encode codecNone cfgPlain reqPost (.obj resp) false),
            status)
      ∧ (status = 200 ∨ status = 400)
      ∧ ((status = 400) ↔
          ((⟨none, [⟨"boom", none, true⟩]⟩ : ExecutionResult).errors ≠ []
            ∧ ∃ e ∈ (⟨none, [⟨"boom", none, true⟩]⟩ : ExecutionResult).errors,
              pathFalsy e = true))
      ∧ (hasKey resp "data" = true ↔ status = 200) :=
  C1_status_selection codecNone engMutation cfgPlain reqPost dataQuery false
    ⟨some (.str "mutation m { x }"), none, none, none⟩
    ⟨none, [⟨"boom", none, true⟩]⟩ rfl rfl rfl

/-- C3: whenever the execution result carries errors, `get_response` calls
`set_rollback()` before encoding the JSON response; and an atomic mutation
whose request has the mutation-errors flag set marks the wrapping
transaction for rollback before `execute_graphql_request` returns the
result. -/
theorem C3_rollback_on_errors :
    (∀ (Doc : Type) (codec : JsonCodec) (eng : Engine Doc) (cfg : ViewConfig)
        (req : Request) (data : JSON) (sg : Bool) (p : GraphQLParams)
        (er : ExecutionResult) (tr : List Event),
      get_graphql_params codec req data = .ok p →
      execute_graphql_request eng cfg req p.query p.vars p.operationName sg
        = (.ok (some er), tr) →
      er.errors ≠ [] →
      ∃ pre d, (get_response codec eng cfg req data sg).2
        = pre ++ [Event.setRollback, Event.encode d])
    ∧ (∀ (Doc : Type) (eng : Engine Doc) (cfg : ViewConfig) (req : Request)
        (q v o : Option JSON) (doc : Doc) (er : ExecutionResult) (sg : Bool),
      optTruthy q = true →
      eng.parse (q.getD .null) = .ok doc →
      lowerStr req.method ≠ "get" →
      eng.validate doc = [] →
      eng.getOperationAst doc o = some .mutation →
      (cfg.atomicMutations = true ∨ cfg.dbAtomicMutations = true) →
      req.mutationErrorsFlag = true →
      eng.execute ⟨q.getD .null, cfg.rootValue, v, o⟩ req = .ok er →
      execute_graphql_request eng cfg req q v o sg
        = (.ok (some er), [Event.execute, Event.txSetRollback])) := by
  constructor
  · intro Doc codec eng cfg req data sg p er tr hp hE herr
    have hie : er.errors.isEmpty = false := by
      simpa [List.isEmpty_iff] using herr
    refine ⟨tr ++ (if req.mutationErrorsFlag then [Event.setRollback] else []),
      .obj (build_response eng cfg er p.id).1, ?_⟩
    simp only [get_response, hp]
    rw [hE]
    simp [hie, List.append_assoc]
  · intro Doc eng cfg req q v o doc er sg hq hparse hm hval hop hatomic hflag hexec
    rcases hatomic with ha | ha <;>
      simp [execute_graphql_request, hq, hparse, hm, hval, hop, hexec, hflag, ha]

/-- Witness for C3: both rollback behaviours at concrete inputs. -/
theorem C3_rollback_on_errors_witness :
    (∃ pre d, (get_response codecNone engMutation cfgPlain reqPost dataQuery
        false).2 = pre ++ [Event.setRollback, Event.encode d])
    ∧ execute_graphql_request engMutation cfgAtomic reqPostFlag
        (some (.str "mutation m { x }")) none none false
      = (.ok (some ⟨none, [⟨"boom", none, true⟩]⟩),
          [Event.execute, Event.txSetRollback]) :=
  ⟨C3_rollback_on_errors.1 Unit codecNone engMutation cfgPlain reqPost
      dataQuery false ⟨some (.str "mutation m { x }"), none, none, none⟩
      ⟨none, [⟨"boom", none, true⟩]⟩ [Event.execute] rfl rfl (by simp),
    C3_rollback_on_errors.2 Unit engMutation cfgAtomic reqPostFlag
      (some (.str "mutation m { x }")) none none () ⟨none, [⟨"boom", none, true⟩]⟩
      false rfl rfl (by decide) rfl rfl (Or.inl rfl) rfl rfl⟩

/-- C10 counterexample: the claim says every string-valued `variables`
parameter that is not valid JSON raises an HTTP 400 `HttpError`; but an
empty string is falsy, so the `json.loads` branch is skipped and
`get_graphql_params` returns normally even though the codec rejects `""`. -/
theorem C10_counterexample :
    codecNone.loads "" = none
    ∧ get_graphql_params codecNone reqPost (.obj [("variables", .str "")])
        = .ok ⟨none, some (.str ""), none, none⟩ :=
  ⟨rfl, rfl⟩

/-- A `variables` value that is not a string passes the `json.loads`
post-processing through unchanged. -/
theorem parseVariables_non_string (codec : JsonCodec) (v : Option JSON)
    (h : ∀ s, v ≠ some (.str s)) : parseVariables codec v = .ok v := by
  rcases v with _ | j
  · rfl
  · cases j with
    | str s => exact absurd rfl (h s)
    | null => rfl
    | bool b => rfl
    | num n => rfl
    | arr l => rfl
    | obj kvs => rfl

/-- C10 (amended): each of the `query`, `variables`, `operationName` and
`id` parameters resolves to the URL parameter when that is truthy and to
the body value otherwise (for `operationName` the resolved value is kept
whenever it is not the string `"null"`, which is normalized to `none`; a
non-string `variables` value is passed through unchanged); and a truthy
(non-empty) string-valued `variables` parameter that is not valid JSON
raises an `HttpError` carrying an HTTP 400 Bad Request response, while a
falsy (empty) string is passed through unparsed. -/
theorem C10_param_resolution :
    (∀ (a b : Option JSON),
      (optTruthy a = true → pyOr a b = a)
      ∧ (optTruthy a = false → pyOr a b = b))
    ∧ (∀ (codec : JsonCodec) (req : Request) (kvs : List (String × JSON))
        (p : GraphQLParams),
      get_graphql_params codec req (.obj kvs) = .ok p →
      p.query = pyOr ((getGET req "query").map .str) (List.lookup "query" kvs)
      ∧ p.id = pyOr ((getGET req "id").map .str) (List.lookup "id" kvs)
      ∧ (pyOr ((getGET req "operationName").map .str)
            (List.lookup "operationName" kvs) = some (.str "null") →
          p.operationName = none)
      ∧ (pyOr ((getGET req "operationName").map .str)
            (List.lookup "operationName" kvs) ≠ some (.str "null") →
          p.operationName = pyOr ((getGET req "operationName").map .str)
            (List.lookup "operationName" kvs))
      ∧ (∀ s j, pyOr ((getGET req "variables").map .str)
            (List.lookup "variables" kvs) = some (.str s) → s ≠ "" →
          codec.loads s = some j → p.vars = some j)
      ∧ (∀ s, pyOr ((getGET req "variables").map .str)
            (List.lookup "variables" kvs) = some (.str s) → s = "" →
          p.vars = some (.str s))
      ∧ ((∀ s, pyOr ((getGET req "variables").map .str)
            (List.lookup "variables" kvs) ≠ some (.str s)) →
          p.vars = pyOr ((getGET req "variables").map .str)
            (List.lookup "variables" kvs)))
    ∧ (∀ (codec : JsonCodec) (req : Request) (kvs : List (String × JSON))
        (s : String),
      pyOr ((getGET req "variables").map .str) (List.lookup "variables" kvs)
        = some (.str s) → s ≠ "" → codec.loads s = none →
      get_graphql_params codec req (.obj kvs)
        = .error (.http (mkHttpError (badRequest "Variables are invalid JSON.")))) := by
  refine ⟨?_, ?_, ?_⟩
  · intro a b
    constructor
    · intro h
      cases a with
      | none => cases h
      | some v => simp only [optTruthy] at h; simp [pyOr, h]
    · intro h
      cases a with
      | none => rfl
      | some v => simp only [optTruthy] at h; simp [pyOr, h]
  · intro codec req kvs p hp
    simp only [get_graphql_params, dataGet] at hp
    rcases hpv : parseVariables codec
        (pyOr ((getGET req "variables").map JSON.str)
          (List.lookup "variables" kvs)) with e | vrs
    · rw [hpv] at hp; cases hp
    · rw [hpv] at hp
      simp only [Except.ok.injEq] at hp
      subst hp
      refine ⟨rfl, rfl, ?_, ?_, ?_, ?_, ?_⟩
      · intro hnull; simp [hnull]
      · intro hne
        rcases hv : pyOr ((getGET req "operationName").map JSON.str)
            (List.lookup "operationName" kvs) with _ | j
        · simp [hv]
        · cases j with
          | str s2 =>
              by_cases hs : s2 = "null"
              · subst hs
                exact absurd hv hne
              · simp [hv, hs]
          | null => simp [hv]
          | bool b => simp [hv]
          | num n => simp [hv]
          | arr l => simp [hv]
          | obj kvs2 => simp [hv]
      · intro s j hres hs hj
        rw [hres] at hpv
        simp only [parseVariables, if_neg hs, hj] at hpv
        injection hpv with h
        exact h.symm
      · intro s hres hs
        rw [hres] at hpv
        subst hs
        rw [show parseVariables codec (some (.str ""))
          = .ok (some (.str "")) from rfl] at hpv
        injection hpv with h
        exact h.symm
      · intro hns
        rw [parseVariables_non_string codec _ hns] at hpv
        injection hpv with h
        exact h.symm
  · intro codec req kvs s hres hs hloads
    simp only [get_graphql_params, dataGet]
    rw [hres]
    simp [parseVariables, hs, hloads]

/-- Witness for C10 (amended) at concrete inputs: a URL `query` wins over
the body, a non-`"null"` `operationName` keeps its resolved value, and an
invalid non-empty `variables` string yields the 400 error. -/
theorem C10_param_resolution_witness :
    pyOr (some (.str "{ a }")) (some (.str "{ b }")) = some (.str "{ a }")
    ∧ (⟨none, none, some (.str "op"), none⟩ : GraphQLParams).operationName
        = pyOr ((getGET reqPost "operationName").map .str)
            (List.lookup "operationName" [("operationName", JSON.str "op")])
    ∧ get_graphql_params codecNone reqPost
        (.obj [("variables", .str "not json")])
      = .error (.http (mkHttpError (badRequest "Variables are invalid JSON."))) :=
  ⟨(C10_param_resolution.1 (some (.str "{ a }")) (some (.str "{ b }"))).1 rfl,
    (C10_param_resolution.2.1 codecNone reqPost
        [("operationName", JSON.str "op")]
        ⟨none, none, some (.str "op"), none⟩ rfl).2.2.2.1
      (by simp [pyOr, getGET, reqPost]),
    C10_param_resolution.2.2 codecNone reqPost [("variables", .str "not json")]
      "not json" rfl (by decide) rfl⟩

/-- C9: the GraphiQL console can be displayed only when no `raw` parameter
occurs in the URL parameters or parsed body and `text/html` appears in the
accepted content types (ordered by descending quality, missing or
unparsable quality defaulting to 1) strictly before `application/json`;
and the default accept header `*/*` never yields the console. -/
theorem C9_graphiql_only_if :
    (∀ (req : Request) (data : JSON),
      can_display_graphiql req data = true →
      (getGET req "raw").isSome = false
      ∧ inData data "raw" = false
      ∧ "text/html" ∈ get_accepted_content_types req
      ∧ ("application/json" ∈ get_accepted_content_types req →
          pyIndex (get_accepted_content_types req) "text/html"
            < pyIndex (get_accepted_content_types req) "application/json"))
    ∧ (∀ (req : Request) (data : JSON),
      (req.acceptHeader = none ∨ req.acceptHeader = some "*/*") →
      can_display_graphiql req data = false) := by
  constructor
  · intro req data h
    simp only [can_display_graphiql, Bool.and_eq_true, Bool.not_eq_true',
      Bool.or_eq_false_iff] at h
    obtain ⟨⟨hraw1, hraw2⟩, hw⟩ := h
    have hlt :
        (if "application/json" ∈ get_accepted_content_types req then
            (get_accepted_content_types req).length
              - pyIndex (get_accepted_content_types req) "application/json"
          else 0)
        < (if "text/html" ∈ get_accepted_content_types req then
            (get_accepted_content_types req).length
              - pyIndex (get_accepted_content_types req) "text/html"
          else 0) := by
      simp only [request_wants_html] at hw
      exact of_decide_eq_true hw
    refine ⟨hraw1, hraw2, ?_⟩
    by_cases hh : "text/html" ∈ get_accepted_content_types req
    · refine ⟨hh, ?_⟩
      intro hj
      rw [if_pos hh, if_pos hj] at hlt
      have h1 := pyIndex_lt_length _ _ hh
      have h2 := pyIndex_lt_length _ _ hj
      omega
    · rw [if_neg hh] at hlt
      exact absurd hlt (Nat.not_lt_zero _)
  · intro req data hacc
    have hw : request_wants_html req = false := by
      rcases hacc with h | h <;>
        · unfold request_wants_html get_accepted_content_types
          rw [h]
          rfl
    simp [can_display_graphiql, hw]

/-- Witness for C9: with `Accept: text/html,application/json` the console
is displayed, so the necessary conditions hold there; and a request with
no accept header stays on JSON. -/
theorem C9_graphiql_only_if_witness :
    ((getGET reqHtml "raw").isSome = false
      ∧ inData (.obj []) "raw" = false
      ∧ "text/html" ∈ get_accepted_content_types reqHtml
      ∧ ("application/json" ∈ get_accepted_content_types reqHtml →
          pyIndex (get_accepted_content_types reqHtml) "text/html"
            < pyIndex (get_accepted_content_types reqHtml) "application/json"))
    ∧ can_display_graphiql reqPost (.obj []) = false :=
  ⟨C9_graphiql_only_if.1 reqHtml (.obj []) rfl,
    C9_graphiql_only_if.2 reqPost (.obj []) (Or.inl rfl)⟩

/-- Every successfully produced `get_response` status code is 200 or
400. -/
theorem get_response_status_cases {Doc : Type} (codec : JsonCodec)
    (eng : Engine Doc) (cfg : ViewConfig) (req : Request) (data : JSON)
    (sg : Bool) (r : Option String) (st : Nat)
    (h : (get_response codec eng cfg req data sg).1 = .ok (r, st)) :
    st = 200 ∨ st = 400 := by
  simp only [get_response] at h
  split at h
  · simp at h
  · split at h
    · simp at h
    · split at h
      · simp only [Except.ok.injEq, Prod.mk.injEq] at h
        exact Or.inl h.2.symm
      · simp only [Except.ok.injEq, Prod.mk.injEq] at h
        rename_i er heq
        rw [← h.2, build_response_status]
        by_cases hb : badResult er = true <;> simp [hb]

/-- Every status in a successful batch run is 200 or 400. -/
theorem run_batch_status_cases {Doc : Type} (codec : JsonCodec)
    (eng : Engine Doc) (cfg : ViewConfig) (req : Request) :
    ∀ (entries : List JSON) (out : List (Option String × Nat))
      (t : List Event),
      run_batch codec eng cfg req entries = (.ok out, t) →
      ∀ pr ∈ out, pr.2 = 200 ∨ pr.2 = 400 := by
  intro entries
  induction entries with
  | nil =>
      intro out t h pr hpr
      simp only [run_batch, Prod.mk.injEq, Except.ok.injEq] at h
      rw [← h.1] at hpr
      cases hpr
  | cons e es ih =>
      intro out t h pr hpr
      simp only [run_batch] at h
      rcases hg : (get_response codec eng cfg req e false).1 with err | pair <;>
        simp only [hg] at h
      · simp only [Prod.mk.injEq] at h
        exact absurd h.1 (by simp)
      · rcases hr : (run_batch codec eng cfg req es).1 with err2 | l <;>
          simp only [hr] at h
        · simp only [Prod.mk.injEq] at h
          exact absurd h.1 (by simp)
        · simp only [Prod.mk.injEq, Except.ok.injEq] at h
          rw [← h.1] at hpr
          rcases List.mem_cons.mp hpr with h1 | h2
          · subst h1
            have hpair : (get_response codec eng cfg req e false).1
                = .ok (pr.1, pr.2) := by
              rw [hg]
            exact get_response_status_cases codec eng cfg req e false pr.1 pr.2 hpair
          · rcases hrun : run_batch codec eng cfg req es with ⟨res, t2⟩
            have : res = .ok l := by rw [← hr, hrun]
            exact ih l t2 (by rw [hrun, this]) pr h2

/-- A successful batch run yields one response per entry. -/
theorem run_batch_length {Doc : Type} (codec : JsonCodec) (eng : Engine Doc)
    (cfg : ViewConfig) (req : Request) :
    ∀ (entries : List JSON) (out : List (Option String × Nat))
      (t : List Event),
      run_batch codec eng cfg req entries = (.ok out, t) →
      out.length = entries.length := by
  intro entries
  induction entries with
  | nil =>
      intro out t h
      simp only [run_batch, Prod.mk.injEq, Except.ok.injEq] at h
      rw [← h.1]
      rfl
  | cons e es ih =>
      intro out t h
      simp only [run_batch] at h
      rcases hg : (get_response codec eng cfg req e false).1 with err | pair <;>
        simp only [hg] at h
      · simp only [Prod.mk.injEq] at h
        exact absurd h.1 (by simp)
      · rcases hr : (run_batch codec eng cfg req es).1 with err2 | l <;>
          simp only [hr] at h
        · simp only [Prod.mk.injEq] at h
          exact absurd h.1 (by simp)
        · simp only [Prod.mk.injEq, Except.ok.injEq] at h
          rw [← h.1]
          rcases hrun : run_batch codec eng cfg req es with ⟨res, t2⟩
          have : res = .ok l := by rw [← hr, hrun]
          simp [ih l t2 (by rw [hrun, this])]

/-- `pyMaxBySnd` computes the running maximum of the status components. -/
theorem pyMaxBySnd_snd (x : Option String × Nat)
    (xs : List (Option String × Nat)) :
    (pyMaxBySnd x xs).2 = xs.foldl (fun m p => max m p.2) x.2 := by
  induction xs generalizing x with
  | nil => rfl
  | cons y ys ih =>
      simp only [pyMaxBySnd, List.foldl]
      rw [ih]
      have : (if y.2 > x.2 then y else x).2 = max x.2 y.2 := by
        by_cases h : y.2 > x.2
        · rw [if_pos h]
          exact (max_eq_right (Nat.le_of_lt h)).symm
        · rw [if_neg h]
          exact (max_eq_left (Nat.le_of_not_lt h)).symm
      rw [this]

/-- The maximum found by `pyMaxBySnd` dominates the seed. -/
theorem pyMaxBySnd_ge (x : Option String × Nat)
    (xs : List (Option String × Nat)) :
    x.2 ≤ (pyMaxBySnd x xs).2 := by
  induction xs generalizing x with
  | nil => exact Nat.le_refl _
  | cons y ys ih =>
      simp only [pyMaxBySnd]
      refine Nat.le_trans ?_ (ih (if y.2 > x.2 then y else x))
      by_cases h : y.2 > x.2
      · rw [if_pos h]; exact Nat.le_of_lt h
      · rw [if_neg h]

/-- C4: with batch mode on, `parse_body` accepts exactly the non-empty JSON
lists of an application/json body (anything else raises a 400 response);
each per-entry response dictionary carries `id` and `status`; and
`dispatch` concatenates the per-entry bodies into a JSON array whose
overall status is the maximum of the per-entry status codes. -/
theorem C4_batch_mode :
    (∀ (codec : JsonCodec) (cfg : ViewConfig) (req : Request),
      cfg.batch = true → get_content_type req = "application/json" →
      (∀ l, codec.loads req.body = some (.arr l) → l ≠ [] →
        parse_body codec cfg req = .ok (.arr l))
      ∧ ((∀ l, codec.loads req.body = some (.arr l) → l = []) →
        ∃ e, parse_body codec cfg req = .error (.http e)
          ∧ e.response.status = 400))
    ∧ (∀ (Doc : Type) (eng : Engine Doc) (cfg : ViewConfig)
        (er : ExecutionResult) (id : Option JSON),
      cfg.batch = true →
      lookupField (build_response eng cfg er id).1 "id" = some (id.getD .null)
      ∧ lookupField (build_response eng cfg er id).1 "status"
          = some (.num (Int.ofNat (build_response eng cfg er id).2)))
    ∧ (∀ (Doc : Type) (codec : JsonCodec) (eng : Engine Doc)
        (cfg : ViewConfig) (req : Request) (entries : List JSON)
        (out : List (String × Nat)) (t : List Event),
      cfg.batch = true → cfg.graphiql = false →
      lowerStr req.method = "post" →
      get_content_type req = "application/json" →
      codec.loads req.body = some (.arr entries) → entries ≠ [] →
      run_batch codec eng cfg req entries
        = (.ok (out.map (fun q => (some q.1, q.2))), t) →
      ∃ r, dispatch codec eng cfg req = (.ok (.response r), .parseBody :: t)
        ∧ r.content
            = "[" ++ String.intercalate "," (out.map (fun q => q.1)) ++ "]"
        ∧ r.status = (out.map (fun q => q.2)).foldl max 0
        ∧ r.contentType = some "application/json") := by
  refine ⟨?_, ?_, ?_⟩
  · intro codec cfg req hb hct
    constructor
    · intro l hl hlne
      have hie : l.isEmpty = false := by simpa [List.isEmpty_iff] using hlne
      simp [parse_body, hct, hl, hb, hie]
    · intro hall
      rcases hload : codec.loads req.body with _ | j
      · exact ⟨mkHttpError (badRequest "POST body sent invalid JSON."),
          by simp [parse_body, hct, hload], rfl⟩
      · cases j with
        | arr l =>
            have hl0 : l = [] := hall l hload
            subst hl0
            exact ⟨mkHttpError
              (badRequest "Received an empty list in the batch request."),
              by simp [parse_body, hct, hload, hb], rfl⟩
        | null =>
            exact ⟨mkHttpError (badRequest "Batch requests should receive a list."),
              by simp [parse_body, hct, hload, hb], rfl⟩
        | bool b2 =>
            exact ⟨mkHttpError (badRequest "Batch requests should receive a list."),
              by simp [parse_body, hct, hload, hb], rfl⟩
        | num n =>
            exact ⟨mkHttpError (badRequest "Batch requests should receive a list."),
              by simp [parse_body, hct, hload, hb], rfl⟩
        | str s2 =>
            exact ⟨mkHttpError (badRequest "Batch requests should receive a list."),
              by simp [parse_body, hct, hload, hb], rfl⟩
        | obj kvs =>
            exact ⟨mkHttpError (badRequest "Batch requests should receive a list."),
              by simp [parse_body, hct, hload, hb], rfl⟩
  · intro Doc eng cfg er id hb
    constructor
    · by_cases hbad : badResult er = true <;>
        by_cases hie : er.errors.isEmpty <;>
          simp [build_response, lookupField, hbad, hie, hb, List.lookup]
    · by_cases hbad : badResult er = true <;>
        by_cases hie : er.errors.isEmpty <;>
          simp [build_response, lookupField, hbad, hie, hb, List.lookup]
  · intro Doc codec eng cfg req entries out t hb hg hm hct hloads hne hrun
    have hlen : out.length = entries.length := by
      have h := run_batch_length codec eng cfg req entries
        (out.map (fun q => (some q.1, q.2))) t hrun
      simpa using h
    have hone : out ≠ [] := by
      intro hnil
      rw [hnil] at hlen
      exact hne (List.length_eq_zero.mp hlen.symm)
    have hie : entries.isEmpty = false := by simpa [List.isEmpty_iff] using hne
    have hpb : parse_body codec cfg req = .ok (.arr entries) := by
      simp [parse_body, hct, hloads, hb, hie]
    rcases out with _ | ⟨o, os⟩
    · exact absurd rfl hone
    · have hstat := run_batch_status_cases codec eng cfg req entries _ t hrun
        (some o.1, o.2) (by simp)
      have hge : 200 ≤ (pyMaxBySnd (some o.1, o.2)
          (os.map (fun q => (some q.1, q.2)))).2 := by
        have h1 := pyMaxBySnd_ge (some o.1, o.2)
          (os.map (fun q => (some q.1, q.2)))
        simp only at h1
        rcases hstat with h | h <;> omega
      have hne0 : ¬ (pyMaxBySnd (some o.1, o.2)
          (os.map (fun q => (some q.1, q.2)))).2 = 0 := by omega
      have hanynone : ((o :: os).map (fun q => (some q.1, q.2))).any
          (fun p => p.1.isNone) = false := by
        simp
        intro a b x y hmem hax hyb
        subst hax
        simp
      simp only [dispatch, hm, hpb, hg, hb, hrun]
      simp [entriesOf, hrun, hanynone, hne0, List.map_map, Function.comp,
        pyMaxBySnd_snd, List.foldl_map, Nat.zero_max]
      constructor
      · simp [Function.comp_def]
      · intro h0
        rw [pyMaxBySnd_snd] at hge
        simp [List.foldl_map] at hge
        omega

/-- Witness for C4: a one-entry batch request at concrete inputs. -/
theorem C4_batch_mode_witness :
    parse_body codecBatch cfgBatch reqBatch
      = .ok (.arr [.obj [("query", .str "{a}")]])
    ∧ (lookupField (build_response engQuery cfgBatch
          (⟨some (.obj []), []⟩ : ExecutionResult) none).1 "id" = some .null
      ∧ lookupField (build_response engQuery cfgBatch
          (⟨some (.obj []), []⟩ : ExecutionResult) none).1 "status"
        = some (.num (Int.ofNat (build_response engQuery cfgBatch
            (⟨some (.obj []), []⟩ : ExecutionResult) none).2)))
    ∧ ∃ r, dispatch codecBatch engQuery cfgBatch reqBatch
        = (.ok (.response r), .parseBody ::
            [Event.execute, Event.encode (.obj [("data", .obj [("a", .num 1)]),
              ("id", .null), ("status", .num 200)])])
      ∧ r.content = "[" ++ String.intercalate "," ["{}"] ++ "]"
      ∧ r.status = ([200] : List Nat).foldl max 0
      ∧ r.contentType = some "application/json" :=
  ⟨(C4_batch_mode.1 codecBatch cfgBatch reqBatch rfl rfl).1
      [.obj [("query", .str "{a}")]] rfl (by simp),
    C4_batch_mode.2.1 Unit engQuery cfgBatch ⟨some (.obj []), []⟩ none rfl,
    C4_batch_mode.2.2 Unit codecBatch engQuery cfgBatch reqBatch
      [.obj [("query", .str "{a}")]] [("{}", 200)]
      [Event.execute, Event.encode (.obj [("data", .obj [("a", .num 1)]),
        ("id", .null), ("status", .num 200)])]
      rfl rfl rfl rfl rfl (by simp) rfl⟩

end GrapheneDjango
